import Mathlib

/-!
Verification of the configuration-decoding core of PerfKitBenchmarker
(`perfkitbenchmarker/configs/spec.py`): the variant registry
(`GetSpecClass`, `BaseSpecMetaClass.__init__`), the decoding pipeline
(`BaseSpec.__init__`, `BaseSpec._InitDecoders`, `BaseSpec._DecodeAndInit`)
and the nested per-cloud decoder (`PerCloudConfigSpec`,
`PerCloudConfigDecoder`).

Python dictionaries are embedded as association lists (key unique-ness is
carried as a hypothesis where it matters); raised exceptions become
`Except` errors; the per-class mutable state (`_decoders`,
`_required_options`) becomes an explicit `ClassState` record threaded
through the functions.  `threading.Lock` is elided: the functions model the
single-threaded semantics the lock enforces.
-/

namespace PKB

/-- A raw configuration value, as parsed from YAML: `None`, booleans,
integers, strings and string-keyed dictionaries.  Decoded spec instances
are also represented as `dict` (their attribute map). -/
inductive Value where
  | null : Value
  | bool : Bool → Value
  | int : Int → Value
  | str : String → Value
  | dict : List (String × Value) → Value

/-- `flag_values`: either `None` or a runtime flag mapping.  The base-class
code never inspects the mapping itself (its `_ApplyFlags` is a no-op), it
only tests for presence and forwards it to decoders. -/
abbrev Flags := Option (List (String × Value))

/-- The errors raised by the decoding core: `errors.Config.MissingOption`,
`errors.Config.UnrecognizedOption`, `errors.Config.InvalidValue` raised by
a decoder on a bad value, and the `errors.Config.InvalidValue` raised by
`BaseSpecMetaClass.__init__` on a duplicate registration (the spec's
`DuplicateVariant`; it carries `SPEC_TYPE` and the attribute names). -/
inductive SpecError where
  | missingOption (component : String) (options : List String)
  | unrecognizedOption (component : String) (options : List String)
  | invalidValue (message : String)
  | duplicateVariant (specType : String) (specAttrs : List String)
deriving Repr, DecidableEq

/-- Dictionary lookup on an association list (first match). -/
def assocLookup {κ : Type} [DecidableEq κ] {α : Type} :
    List (κ × α) → κ → Option α
  | [], _ => none
  | (k, v) :: rest, key => if k = key then some v else assocLookup rest key

/-- `key in dict`. -/
def containsKey {κ : Type} [DecidableEq κ] {α : Type}
    (config : List (κ × α)) (key : κ) : Bool :=
  (assocLookup config key).isSome

/-- The keys of a dictionary. -/
def keys {κ α : Type} (config : List (κ × α)) : List κ :=
  config.map Prod.fst

/-! ### Variant registry

`_SPEC_REGISTRY` maps a composite key — `[SPEC_TYPE] + sorted attribute
pairs` — to a concrete class.  Classes are represented by their names
(strings); discriminator attribute values are strings (cloud names). -/

/-- String strict order, decided through the character lists (so that the
kernel can evaluate comparisons on concrete strings). -/
def decStrLt (s t : String) : Decidable (s < t) :=
  decidable_of_iff (s.toList < t.toList) String.lt_iff_toList_lt.symm

/-- String order, decided through the character lists. -/
def decStrLe (s t : String) : Decidable (s ≤ t) :=
  decidable_of_iff (s.toList ≤ t.toList) String.le_iff_toList_le.symm

/-- Python's ordering on `(attr, value)` tuples: lexicographic. -/
def pairLe (a b : String × String) : Prop :=
  a.1 < b.1 ∨ (a.1 = b.1 ∧ a.2 ≤ b.2)

instance : DecidableRel pairLe := fun a b =>
  @instDecidableOr _ _ (decStrLt a.1 b.1)
    (@instDecidableAnd _ _ (instDecidableEqString a.1 b.1)
      (decStrLe a.2 b.2))

/-- `sorted(...)` on a list of `(attr, value)` tuples. -/
def sortPairs (l : List (String × String)) : List (String × String) :=
  List.insertionSort pairLe l

/-- The composite registry key `tuple([typeName] + sorted(pairs))`. -/
abbrev SpecKey := String × List (String × String)

/-- `_SPEC_REGISTRY`, as an association list from keys to class names. -/
abbrev Registry := List (SpecKey × String)

/-- Composes the registry key from a base-type name and attribute pairs. -/
def specKey (typeName : String) (attrs : List (String × String)) : SpecKey :=
  (typeName, sortPairs attrs)

/-- `GetSpecClass(base_class, **kwargs)`: look up the registered subclass
for the sorted key, falling back to the base class itself
(`_SPEC_REGISTRY.get(tuple(key), base_class)`). -/
def getSpecClass (registry : Registry) (baseClassName : String)
    (kwargs : List (String × String)) : String :=
  (assocLookup registry (specKey baseClassName kwargs)).getD baseClassName

/-- The registration step of `BaseSpecMetaClass.__init__` (run when the
class defines `SPEC_TYPE` and all of `SPEC_ATTRS`): build the composite
key from `SPEC_TYPE` and the sorted `(attr, getattr(cls, attr))` pairs;
raise if the key is already present, otherwise insert the class.  Returns
the registry after the call together with the raised error, if any. -/
def registerSpec (registry : Registry) (specType : String)
    (attrs : List (String × String)) (cls : String) :
    Registry × Option SpecError :=
  let key := specKey specType attrs
  if containsKey registry key then
    (registry, some (.duplicateVariant specType (attrs.map Prod.fst)))
  else
    ((key, cls) :: registry, none)

/-! ### Decoders and per-class state

`option_decoders.ConfigOptionDecoder` is an external collaborator (the
module is not among the sources); per the spec's §6 it exposes
`Decode(rawValue, componentFullName, overrideSource)`, a `required` flag
and a `default` value. -/

/-- An instantiated option decoder (the external `OptionDecoder`
capability): a `required` flag, a `default` value, and a `Decode`
function that may fail with a decoder-specific error. -/
structure Decoder where
  option : String
  required : Bool
  default : Value
  decode : Value → String → Flags → Except SpecError Value

/-- A `(decoder_class, init_args)` pair of `_GetOptionDecoderConstructions`:
applying it to the option name performs
`decoder_class(option=option, **init_args)`. -/
abbrev DecoderCtor := String → Decoder

/-- The per-class mutable state that `BaseSpecMetaClass.__init__` creates
and `_InitDecoders` populates: `cls._decoders` (an `OrderedDict`, embedded
as a list in insertion order) and `cls._required_options` (a set, embedded
as a list). -/
structure ClassState where
  decoders : List (String × Decoder)
  requiredOptions : List String

/-- The state `BaseSpecMetaClass.__init__` installs on every new class:
empty `_decoders`, empty `_required_options`. -/
def emptyClassState : ClassState := ⟨[], []⟩

/-- Ordering used by `sorted(six.iteritems(constructions))`: Python sorts
the `(option, construction)` tuples, which compares the option names first
(the constructions are never compared because dict keys are distinct). -/
def ctorLe (a b : String × DecoderCtor) : Prop := a.1 ≤ b.1

instance : DecidableRel ctorLe := fun a b => decStrLe a.1 b.1

/-- `BaseSpec._InitDecoders()`: under the lock, if `cls._decoders` is still
empty, instantiate one decoder per entry of
`_GetOptionDecoderConstructions()` in sorted option-name order, recording
the option in `_required_options` when its decoder is required. -/
def initDecoders (constructions : List (String × DecoderCtor))
    (st : ClassState) : ClassState :=
  if st.decoders.isEmpty then
    let decs := (List.insertionSort ctorLe constructions).map
      fun p => (p.1, p.2 p.1)
    { decoders := decs
      requiredOptions := (decs.filter fun p => p.2.required).map Prod.fst }
  else st

/-- `BaseSpec._ApplyFlags(config_values, flag_values)`: the base-class
hook is a no-op (`pass`). -/
def applyFlags (config : List (String × Value))
    (_flagValues : List (String × Value)) : List (String × Value) :=
  config

/-- `BaseSpec._DecodeAndInit(component_full_name, config, decoders,
flag_values)`: for each `(option, decoder)` of the ordered decoder table,
decode the provided value (or take the decoder's default) and assign it as
the instance attribute named `option`.  The returned list is the
instance's attribute map, in assignment order.  A decoder failure
propagates (fail-fast). -/
def decodeAndInit (component : String) (config : List (String × Value))
    (decoders : List (String × Decoder)) (flagValues : Flags) :
    Except SpecError (List (String × Value)) :=
  match decoders with
  | [] => .ok []
  | (option, decoder) :: rest =>
    match (match assocLookup config option with
            | some raw => decoder.decode raw component flagValues
            | none => .ok decoder.default) with
    | .error e => .error e
    | .ok value =>
      match decodeAndInit component config rest flagValues with
      | .error e => .error e
      | .ok attrs => .ok ((option, value) :: attrs)

/-- `sorted(...)` on a list of option names. -/
def sortStrings (l : List String) : List String :=
  List.insertionSort (α := String) (· ≤ ·) l

/-- `BaseSpec.__init__(component_full_name, flag_values, **kwargs)`:
lazily build the decoder table, apply the flag hook, raise
`MissingOption` on missing required options (naming the component and the
sorted missing names), then `UnrecognizedOption` on unknown options
(naming the component and the sorted unknown names), and finally decode.
`st0` is the class state before the call; the result is the attribute map
of the constructed instance. -/
def specInit (component : String)
    (constructions : List (String × DecoderCtor)) (st0 : ClassState)
    (flagValues : Flags) (kwargs : List (String × Value)) :
    Except SpecError (List (String × Value)) :=
  let st := if st0.decoders.isEmpty then initDecoders constructions st0
    else st0
  let config := match flagValues with
    | some fv => applyFlags kwargs fv
    | none => kwargs
  let missingOptions :=
    st.requiredOptions.filter fun o => !containsKey config o
  if missingOptions ≠ [] then
    .error (.missingOption component (sortStrings missingOptions.dedup))
  else
    let unrecognizedOptions :=
      (keys config).filter fun o => !containsKey st.decoders o
    if unrecognizedOptions ≠ [] then
      .error
        (.unrecognizedOption component
          (sortStrings unrecognizedOptions.dedup))
    else
      decodeAndInit component config st.decoders flagValues

/-! ### The nested per-cloud decoder -/

/-- Modelled from the spec: `OptionDecoder.FullOptionName` (the
`option_decoders` module is not among the sources); per §4.4 the derived
component name is the parent name + "." + the option name. -/
def getOptionFullName (option : String) (component : String) : String :=
  component ++ "." ++ option

/-- Modelled from the spec: the external type-verifying decoder
(`option_decoders.TypeVerifier` with `valid_types=(dict,)` is not among
the sources); per §4.4 it "accepts only mapping values (or null)",
returning the value unchanged, and fails with the decoder's `InvalidValue`
type error (named with the full option name) otherwise. -/
def typeVerifierDecode (option : String) (value : Value)
    (component : String) : Except SpecError Value :=
  match value with
  | .null => .ok .null
  | .dict entries => .ok (.dict entries)
  | _ => .error (.invalidValue (getOptionFullName option component))

/-- The decoder construction `PerCloudConfigSpec` registers for each
cloud: `option_decoders.TypeVerifier, {'default': None, 'valid_types':
(dict,)}` — an optional (not required) mapping-typed attribute defaulting
to `None`. -/
def perCloudOptionCtor : DecoderCtor := fun option =>
  { option := option
    required := false
    default := .null
    decode := fun value component _ => typeVerifierDecode option value component }

/-- `PerCloudConfigSpec._GetOptionDecoderConstructions()`: the base-class
result (empty) extended with one `TypeVerifier` construction per cloud of
the external enumeration `provider_info.VALID_CLOUDS` (passed here as the
parameter `validClouds`). -/
def perCloudConfigConstructions (validClouds : List String) :
    List (String × DecoderCtor) :=
  validClouds.map fun cloud => (cloud, perCloudOptionCtor)

/-- `PerCloudConfigDecoder.Decode(value, component_full_name,
flag_values)`: type-verify the value (mapping or null), return `None`
unchanged, and otherwise construct a `PerCloudConfigSpec` instance from
the input dict under the derived component name, propagating
`flag_values`.  The constructed instance's attribute map is returned as a
`Value.dict` (the verifier only ever returns `null` or `dict`, so the
final catch-all arm is unreachable). -/
def perCloudConfigDecoderDecode (option : String)
    (validClouds : List String) (value : Value) (component : String)
    (flagValues : Flags) : Except SpecError Value := do
  let inputDict ← typeVerifierDecode option value component
  match inputDict with
  | .null => pure .null
  | .dict entries =>
    Value.dict <$>
      specInit (getOptionFullName option component)
        (perCloudConfigConstructions validClouds) emptyClassState
        flagValues entries
  | v => pure v

/-! ### Sample decoder collaborators

Concrete `OptionDecoder` instantiations used for concrete test inputs,
mirroring the spec's §8 example schema: a required int option `size` and
an optional string option `tier` defaulting to "standard". -/

/-- A required int-typed option decoder construction. -/
def sampleSizeCtor : DecoderCtor := fun option =>
  { option := option
    required := true
    default := .null
    decode := fun value component _ => match value with
      | .int n => .ok (.int n)
      | _ => .error (.invalidValue (getOptionFullName option component)) }

/-- An optional string-typed option decoder construction with default
"standard". -/
def sampleTierCtor : DecoderCtor := fun option =>
  { option := option
    required := false
    default := .str "standard"
    decode := fun value component _ => match value with
      | .str s => .ok (.str s)
      | _ => .error (.invalidValue (getOptionFullName option component)) }

/-- The §8 example schema: required `size`, optional `tier`. -/
def sampleConstructions : List (String × DecoderCtor) :=
  [("size", sampleSizeCtor), ("tier", sampleTierCtor)]

/-! ### Order facts for the registry key ordering -/

instance : IsTotal (String × String) pairLe where
  total := by
    intro a b
    rcases lt_trichotomy a.1 b.1 with h | h | h
    · exact Or.inl (Or.inl h)
    · rcases le_total a.2 b.2 with h2 | h2
      · exact Or.inl (Or.inr ⟨h, h2⟩)
      · exact Or.inr (Or.inr ⟨h.symm, h2⟩)
    · exact Or.inr (Or.inl h)

instance : IsTrans (String × String) pairLe where
  trans := by
    intro a b c hab hbc
    rcases hab with h1 | ⟨e1, l1⟩ <;> rcases hbc with h2 | ⟨e2, l2⟩
    · exact Or.inl (h1.trans h2)
    · exact Or.inl (lt_of_lt_of_le h1 (le_of_eq e2))
    · exact Or.inl (lt_of_le_of_lt (le_of_eq e1) h2)
    · exact Or.inr ⟨e1.trans e2, l1.trans l2⟩

instance : IsAntisymm (String × String) pairLe where
  antisymm := by
    intro a b hab hba
    rcases hab with h1 | ⟨e1, l1⟩ <;> rcases hba with h2 | ⟨e2, l2⟩
    · exact absurd (h1.trans h2) (lt_irrefl _)
    · exact absurd h1 (by rw [e2]; exact lt_irrefl _)
    · exact absurd h2 (by rw [e1]; exact lt_irrefl _)
    · exact Prod.ext e1 (le_antisymm l1 l2)

instance : IsTotal (String × DecoderCtor) ctorLe where
  total a b := le_total a.1 b.1

instance : IsTrans (String × DecoderCtor) ctorLe where
  trans _ _ _ hab hbc := le_trans hab hbc

/-! ### Claims about the variant registry -/

/-- Claim C5: lookup is order-independent in its discriminator pairs — for
every registry, base type and two permutations of the same discriminator
`(attribute, value)` pairs, `GetSpecClass` returns the same result,
because the composite key sorts the pairs. -/
theorem getSpecClass_perm_invariant (registry : Registry)
    (baseClassName : String) (l1 l2 : List (String × String))
    (h : l1.Perm l2) :
    getSpecClass registry baseClassName l1 =
      getSpecClass registry baseClassName l2 := by
  have hsort : sortPairs l1 = sortPairs l2 :=
    List.eq_of_perm_of_sorted
      (((List.perm_insertionSort pairLe l1).trans h).trans
        (List.perm_insertionSort pairLe l2).symm)
      (List.sorted_insertionSort pairLe l1)
      (List.sorted_insertionSort pairLe l2)
  unfold getSpecClass specKey
  rw [hsort]

/-- Witness for C5 at a concrete registry and two concrete permutations of
the same discriminator pairs. -/
theorem getSpecClass_perm_invariant_witness :
    getSpecClass
        [(("BaseVmSpec", [("CLOUD", "GCP"), ("OS_TYPE", "linux")]),
          "GceVmSpec")]
        "BaseVmSpec" [("CLOUD", "GCP"), ("OS_TYPE", "linux")] =
      getSpecClass
        [(("BaseVmSpec", [("CLOUD", "GCP"), ("OS_TYPE", "linux")]),
          "GceVmSpec")]
        "BaseVmSpec" [("OS_TYPE", "linux"), ("CLOUD", "GCP")] :=
  getSpecClass_perm_invariant _ _ _ _ (by decide)

/-- Claim C8: for every base type and discriminator pairs under whose
composite key no variant is registered, `GetSpecClass` returns the
supplied base type itself rather than failing. -/
theorem getSpecClass_fallback (registry : Registry)
    (baseClassName : String) (kwargs : List (String × String))
    (h : assocLookup registry (specKey baseClassName kwargs) = none) :
    getSpecClass registry baseClassName kwargs = baseClassName := by
  unfold getSpecClass
  rw [h]
  rfl

/-- Witness for C8: a registry holding one variant, looked up with
discriminator values registered for no variant. -/
theorem getSpecClass_fallback_witness :
    getSpecClass
        [(("BaseVmSpec", [("CLOUD", "GCP")]), "GceVmSpec")]
        "BaseVmSpec" [("CLOUD", "AWS")] = "BaseVmSpec" :=
  getSpecClass_fallback _ _ _ (by decide)

/-- Claim C4: registering a second variant under an already registered
composite key fails with the duplicate-variant error (naming `SPEC_TYPE`
and the discriminator attribute names) instead of overwriting, while
registering under a fresh key succeeds: the call reports no error and the
new class is found under its key afterwards. -/
theorem registerSpec_duplicate_errors (registry : Registry)
    (specType : String) (attrs attrs2 : List (String × String))
    (cls cls2 : String)
    (hdup : containsKey registry (specKey specType attrs) = true)
    (hnew : containsKey registry (specKey specType attrs2) = false) :
    registerSpec registry specType attrs cls =
      (registry,
        some (.duplicateVariant specType (attrs.map Prod.fst))) ∧
    (registerSpec registry specType attrs2 cls2).2 = none ∧
    assocLookup (registerSpec registry specType attrs2 cls2).1
      (specKey specType attrs2) = some cls2 := by
  unfold registerSpec
  refine ⟨?_, ?_, ?_⟩
  · simp [hdup]
  · simp [hnew]
  · simp [hnew, assocLookup]

/-- Witness for C4: a registry holding one variant; re-registering the
same key (in permuted attribute order) fails, registering a different
discriminator value succeeds. -/
theorem registerSpec_duplicate_errors_witness :
    registerSpec [(("BaseVmSpec", [("CLOUD", "GCP")]), "GceVmSpec")]
        "BaseVmSpec" [("CLOUD", "GCP")] "OtherGceVmSpec" =
      ([(("BaseVmSpec", [("CLOUD", "GCP")]), "GceVmSpec")],
        some (.duplicateVariant "BaseVmSpec" ["CLOUD"])) ∧
    (registerSpec [(("BaseVmSpec", [("CLOUD", "GCP")]), "GceVmSpec")]
        "BaseVmSpec" [("CLOUD", "AWS")] "AwsVmSpec").2 = none ∧
    assocLookup
      (registerSpec [(("BaseVmSpec", [("CLOUD", "GCP")]), "GceVmSpec")]
          "BaseVmSpec" [("CLOUD", "AWS")] "AwsVmSpec").1
      (specKey "BaseVmSpec" [("CLOUD", "AWS")]) = some "AwsVmSpec" :=
  registerSpec_duplicate_errors _ _ _ _ _ _ (by decide) (by decide)

/-- Claim C10: registration is atomic — when registering fails because the
composite key already exists, the registry is unchanged: the previously
registered class remains mapped to that key and the new class is not
inserted anywhere. -/
theorem registerSpec_duplicate_preserves_registry (registry : Registry)
    (specType : String) (attrs : List (String × String))
    (cls oldCls : String)
    (h : assocLookup registry (specKey specType attrs) = some oldCls) :
    (registerSpec registry specType attrs cls).1 = registry ∧
    assocLookup (registerSpec registry specType attrs cls).1
      (specKey specType attrs) = some oldCls ∧
    (registerSpec registry specType attrs cls).2.isSome = true := by
  have hc : containsKey registry (specKey specType attrs) = true := by
    unfold containsKey
    rw [h]
    rfl
  unfold registerSpec
  simp [hc, h]

/-- Witness for C10: re-registering an existing key leaves the concrete
registry unchanged. -/
theorem registerSpec_duplicate_preserves_registry_witness :
    (registerSpec [(("BaseVmSpec", [("CLOUD", "GCP")]), "GceVmSpec")]
        "BaseVmSpec" [("CLOUD", "GCP")] "OtherGceVmSpec").1 =
      [(("BaseVmSpec", [("CLOUD", "GCP")]), "GceVmSpec")] ∧
    assocLookup
      (registerSpec [(("BaseVmSpec", [("CLOUD", "GCP")]), "GceVmSpec")]
          "BaseVmSpec" [("CLOUD", "GCP")] "OtherGceVmSpec").1
      (specKey "BaseVmSpec" [("CLOUD", "GCP")]) = some "GceVmSpec" ∧
    (registerSpec [(("BaseVmSpec", [("CLOUD", "GCP")]), "GceVmSpec")]
        "BaseVmSpec" [("CLOUD", "GCP")] "OtherGceVmSpec").2.isSome =
      true :=
  registerSpec_duplicate_preserves_registry _ _ _ _ _ (by decide)

/-! ### Branch lemmas for the decoding pipeline -/

/-- Unfolding `specInit` on a class whose decoder table was not yet
built: the flag hook is the base-class no-op, so the pipeline reduces to
the two validation checks followed by `_DecodeAndInit`. -/
lemma specInit_empty_unfold (component : String)
    (constructions : List (String × DecoderCtor)) (flagValues : Flags)
    (kwargs : List (String × Value)) :
    specInit component constructions emptyClassState flagValues kwargs =
      if (initDecoders constructions emptyClassState).requiredOptions.filter
          (fun o => !containsKey kwargs o) ≠ [] then
        .error (.missingOption component
          (sortStrings
            ((initDecoders constructions
                emptyClassState).requiredOptions.filter
              (fun o => !containsKey kwargs o)).dedup))
      else if (keys kwargs).filter
          (fun k =>
            !containsKey
              (initDecoders constructions emptyClassState).decoders k) ≠
          [] then
        .error (.unrecognizedOption component
          (sortStrings
            ((keys kwargs).filter
              (fun k =>
                !containsKey
                  (initDecoders constructions emptyClassState).decoders
                  k)).dedup))
      else
        decodeAndInit component kwargs
          (initDecoders constructions emptyClassState).decoders
          flagValues := by
  cases flagValues <;> rfl

/-- On a class whose decoder table was not yet built, `__init__` raises
`MissingOption` as soon as some required option is absent from the
(post-flag-hook) kwargs: the error carries the sorted set of missing
names. -/
lemma specInit_missing_eq (component : String)
    (constructions : List (String × DecoderCtor)) (flagValues : Flags)
    (kwargs : List (String × Value))
    (h : (initDecoders constructions emptyClassState).requiredOptions.filter
        (fun o => !containsKey kwargs o) ≠ []) :
    specInit component constructions emptyClassState flagValues kwargs =
      .error (.missingOption component
        (sortStrings
          ((initDecoders constructions
              emptyClassState).requiredOptions.filter
            (fun o => !containsKey kwargs o)).dedup)) := by
  rw [specInit_empty_unfold, if_pos h]

/-- When every required option is supplied but some kwargs key is not in
the decoder table, `__init__` raises `UnrecognizedOption` carrying the
sorted set of unknown names. -/
lemma specInit_unrecognized_eq (component : String)
    (constructions : List (String × DecoderCtor)) (flagValues : Flags)
    (kwargs : List (String × Value))
    (hm : (initDecoders constructions emptyClassState).requiredOptions.filter
        (fun o => !containsKey kwargs o) = [])
    (hu : (keys kwargs).filter
        (fun k =>
          !containsKey (initDecoders constructions emptyClassState).decoders
            k) ≠ []) :
    specInit component constructions emptyClassState flagValues kwargs =
      .error (.unrecognizedOption component
        (sortStrings
          ((keys kwargs).filter
            (fun k =>
              !containsKey
                (initDecoders constructions emptyClassState).decoders
                k)).dedup)) := by
  rw [specInit_empty_unfold, if_neg (not_not_intro hm), if_pos hu]

/-- When both validation checks pass, `__init__` hands over to
`_DecodeAndInit` on the built decoder table. -/
lemma specInit_decode_eq (component : String)
    (constructions : List (String × DecoderCtor)) (flagValues : Flags)
    (kwargs : List (String × Value))
    (hm : (initDecoders constructions emptyClassState).requiredOptions.filter
        (fun o => !containsKey kwargs o) = [])
    (hu : (keys kwargs).filter
        (fun k =>
          !containsKey (initDecoders constructions emptyClassState).decoders
            k) = []) :
    specInit component constructions emptyClassState flagValues kwargs =
      decodeAndInit component kwargs
        (initDecoders constructions emptyClassState).decoders flagValues := by
  rw [specInit_empty_unfold, if_neg (not_not_intro hm),
    if_neg (not_not_intro hu)]

/-! ### Claims about the validation checks -/

/-- Claim C2: for every input map lacking some member of the required
options, construction fails with a `MissingOption` error naming the
component and exactly the missing option names, sorted (and without
duplicates), and no instance is returned. -/
theorem construct_missing_option (component : String)
    (constructions : List (String × DecoderCtor)) (flagValues : Flags)
    (kwargs : List (String × Value))
    (h : ∃ o ∈ (initDecoders constructions emptyClassState).requiredOptions,
        containsKey kwargs o = false) :
    ∃ ms,
      specInit component constructions emptyClassState flagValues kwargs =
        .error (.missingOption component ms) ∧
      ms.Sorted (· ≤ ·) ∧ ms.Nodup ∧
      ∀ o, o ∈ ms ↔
        (o ∈ (initDecoders constructions emptyClassState).requiredOptions ∧
          containsKey kwargs o = false) := by
  obtain ⟨o, ho, hko⟩ := h
  have hne :
      (initDecoders constructions emptyClassState).requiredOptions.filter
        (fun o => !containsKey kwargs o) ≠ [] := by
    apply List.ne_nil_of_mem (a := o)
    rw [List.mem_filter]
    exact ⟨ho, by rw [hko]; rfl⟩
  refine ⟨_, specInit_missing_eq component constructions flagValues kwargs
    hne, ?_, ?_, ?_⟩
  · exact List.sorted_insertionSort _ _
  · exact (List.perm_insertionSort _ _).nodup_iff.mpr (List.nodup_dedup _)
  · intro o'
    unfold sortStrings
    rw [List.mem_insertionSort, List.mem_dedup, List.mem_filter]
    simp

/-- Witness for C2: the §8 example — the empty input is missing the
required `size` option. -/
theorem construct_missing_option_witness :
    ∃ ms,
      specInit "test_component" sampleConstructions emptyClassState none
          [] =
        .error (.missingOption "test_component" ms) ∧
      ms.Sorted (· ≤ ·) ∧ ms.Nodup ∧
      ∀ o, o ∈ ms ↔
        (o ∈ (initDecoders sampleConstructions
            emptyClassState).requiredOptions ∧
          containsKey ([] : List (String × Value)) o = false) :=
  construct_missing_option "test_component" sampleConstructions none []
    ⟨"size", by decide, by decide⟩

/-- Claim C3: for every input map containing every required option but
also some key outside the decoder table, construction fails with an
`UnrecognizedOption` error naming the component and exactly the
unrecognized option names, sorted (and without duplicates), and no
instance is returned. -/
theorem construct_unrecognized_option (component : String)
    (constructions : List (String × DecoderCtor)) (flagValues : Flags)
    (kwargs : List (String × Value))
    (hreq : ∀ o ∈ (initDecoders constructions
        emptyClassState).requiredOptions, containsKey kwargs o = true)
    (h : ∃ k ∈ keys kwargs,
        containsKey (initDecoders constructions emptyClassState).decoders
          k = false) :
    ∃ us,
      specInit component constructions emptyClassState flagValues kwargs =
        .error (.unrecognizedOption component us) ∧
      us.Sorted (· ≤ ·) ∧ us.Nodup ∧
      ∀ k, k ∈ us ↔
        (k ∈ keys kwargs ∧
          containsKey (initDecoders constructions emptyClassState).decoders
            k = false) := by
  obtain ⟨k, hk, hkd⟩ := h
  have hm :
      (initDecoders constructions emptyClassState).requiredOptions.filter
        (fun o => !containsKey kwargs o) = [] := by
    rw [List.filter_eq_nil_iff]
    intro o ho
    rw [hreq o ho]
    simp
  have hne :
      (keys kwargs).filter
        (fun k =>
          !containsKey (initDecoders constructions emptyClassState).decoders
            k) ≠ [] := by
    apply List.ne_nil_of_mem (a := k)
    rw [List.mem_filter]
    exact ⟨hk, by rw [hkd]; rfl⟩
  refine ⟨_, specInit_unrecognized_eq component constructions flagValues
    kwargs hm hne, ?_, ?_, ?_⟩
  · exact List.sorted_insertionSort _ _
  · exact (List.perm_insertionSort _ _).nodup_iff.mpr (List.nodup_dedup _)
  · intro k'
    unfold sortStrings
    rw [List.mem_insertionSort, List.mem_dedup, List.mem_filter]
    simp

/-- Witness for C3: the §8 example — `size` supplied together with an
unknown `bogus` option. -/
theorem construct_unrecognized_option_witness :
    ∃ us,
      specInit "test_component" sampleConstructions emptyClassState none
          [("size", .int 10), ("bogus", .int 1)] =
        .error (.unrecognizedOption "test_component" us) ∧
      us.Sorted (· ≤ ·) ∧ us.Nodup ∧
      ∀ k, k ∈ us ↔
        (k ∈ keys [("size", Value.int 10), ("bogus", Value.int 1)] ∧
          containsKey (initDecoders sampleConstructions
              emptyClassState).decoders k = false) :=
  construct_unrecognized_option "test_component" sampleConstructions none
    [("size", .int 10), ("bogus", .int 1)]
    (by
      intro o ho
      rw [show (initDecoders sampleConstructions
          emptyClassState).requiredOptions = ["size"] from rfl,
        List.mem_singleton] at ho
      subst ho
      decide)
    ⟨"bogus", by decide, by decide⟩

/-- Claim C9: when the input both lacks a required option and contains an
unrecognized option, construction fails with `MissingOption`, not
`UnrecognizedOption` — the missing-options check runs first. -/
theorem construct_missing_checked_first (component : String)
    (constructions : List (String × DecoderCtor)) (flagValues : Flags)
    (kwargs : List (String × Value))
    (hm : ∃ o ∈ (initDecoders constructions
        emptyClassState).requiredOptions, containsKey kwargs o = false)
    (_hu : ∃ k ∈ keys kwargs,
        containsKey (initDecoders constructions emptyClassState).decoders
          k = false) :
    ∃ ms,
      specInit component constructions emptyClassState flagValues kwargs =
        .error (.missingOption component ms) := by
  obtain ⟨o, ho, hko⟩ := hm
  have hne :
      (initDecoders constructions emptyClassState).requiredOptions.filter
        (fun o => !containsKey kwargs o) ≠ [] := by
    apply List.ne_nil_of_mem (a := o)
    rw [List.mem_filter]
    exact ⟨ho, by rw [hko]; rfl⟩
  exact ⟨_, specInit_missing_eq component constructions flagValues kwargs
    hne⟩

/-- Witness for C9: input `[("bogus", 1)]` is both missing `size` and
carrying the unknown `bogus`; the failure is `MissingOption`. -/
theorem construct_missing_checked_first_witness :
    ∃ ms,
      specInit "test_component" sampleConstructions emptyClassState none
          [("bogus", .int 1)] =
        .error (.missingOption "test_component" ms) :=
  construct_missing_checked_first "test_component" sampleConstructions
    none [("bogus", .int 1)]
    ⟨"size", by decide, by decide⟩
    ⟨"bogus", by decide, by decide⟩

/-! ### Structure of the built decoder table -/

/-- The built decoder table is keyed by the declared option names in
sorted order. -/
lemma keys_initDecoders (constructions : List (String × DecoderCtor)) :
    keys (initDecoders constructions emptyClassState).decoders =
      keys (List.insertionSort ctorLe constructions) := by
  show keys ((List.insertionSort ctorLe constructions).map
    fun p => (p.1, p.2 p.1)) = _
  unfold keys
  rw [List.map_map]
  rfl

/-- The built decoder table holds exactly the declared option names. -/
lemma keys_initDecoders_perm (constructions : List (String × DecoderCtor)) :
    (keys (initDecoders constructions emptyClassState).decoders).Perm
      (keys constructions) := by
  rw [keys_initDecoders]
  exact (List.perm_insertionSort ctorLe constructions).map Prod.fst

/-- The built decoder table's keys are in sorted option-name order. -/
lemma keys_initDecoders_sorted
    (constructions : List (String × DecoderCtor)) :
    (keys (initDecoders constructions emptyClassState).decoders).Sorted
      (· ≤ ·) := by
  rw [keys_initDecoders]
  exact List.Pairwise.map Prod.fst (fun a b h => h)
    (List.sorted_insertionSort ctorLe constructions)

/-- A decoder is in the built table exactly when its option was declared,
and then it is the instantiation of the declared construction. -/
lemma mem_initDecoders_iff (constructions : List (String × DecoderCtor))
    (o : String) (d : Decoder) :
    (o, d) ∈ (initDecoders constructions emptyClassState).decoders ↔
      ∃ c, (o, c) ∈ constructions ∧ d = c o := by
  show (o, d) ∈ (List.insertionSort ctorLe constructions).map
    (fun p => (p.1, p.2 p.1)) ↔ _
  rw [List.mem_map]
  constructor
  · rintro ⟨q, hq, heq⟩
    rw [Prod.mk.injEq] at heq
    obtain ⟨h1, h2⟩ := heq
    subst h1
    exact ⟨q.2, (List.perm_insertionSort ctorLe constructions).mem_iff.mp hq,
      h2.symm⟩
  · rintro ⟨c, hc, rfl⟩
    exact ⟨(o, c),
      (List.perm_insertionSort ctorLe constructions).mem_iff.mpr hc, rfl⟩

/-- An option is in the built required set exactly when its declared
construction instantiates to a required decoder. -/
lemma mem_requiredOptions_iff (constructions : List (String × DecoderCtor))
    (o : String) :
    o ∈ (initDecoders constructions emptyClassState).requiredOptions ↔
      ∃ c, (o, c) ∈ constructions ∧ (c o).required = true := by
  show o ∈ (((List.insertionSort ctorLe constructions).map
    (fun p => (p.1, p.2 p.1))).filter (fun p => p.2.required)).map
      Prod.fst ↔ _
  rw [List.mem_map]
  constructor
  · rintro ⟨p, hp, rfl⟩
    rw [List.mem_filter] at hp
    obtain ⟨hp, hreq⟩ := hp
    rw [List.mem_map] at hp
    obtain ⟨q, hq, rfl⟩ := hp
    exact ⟨q.2, (List.perm_insertionSort ctorLe constructions).mem_iff.mp hq,
      hreq⟩
  · rintro ⟨c, hc, hreq⟩
    exact ⟨(o, c o), List.mem_filter.mpr
      ⟨List.mem_map.mpr ⟨(o, c),
        (List.perm_insertionSort ctorLe constructions).mem_iff.mpr hc, rfl⟩,
        hreq⟩, rfl⟩

/-- Claim C6: after the first completed build, the decoder table holds
exactly the declared option names in sorted order (each exactly once when
the declared names are distinct, as they are for a Python dict), the
required set holds exactly the declared options whose decoder is
required, and any later `_InitDecoders` call on a class whose table is
already non-empty returns immediately, changing nothing. -/
theorem decoder_table_build (constructions : List (String × DecoderCtor))
    (hnd : (keys constructions).Nodup) :
    ((keys (initDecoders constructions emptyClassState).decoders).Perm
        (keys constructions) ∧
      (keys (initDecoders constructions emptyClassState).decoders).Sorted
        (· ≤ ·) ∧
      (keys (initDecoders constructions emptyClassState).decoders).Nodup) ∧
    (∀ o, o ∈ (initDecoders constructions
        emptyClassState).requiredOptions ↔
      ∃ c, (o, c) ∈ constructions ∧ (c o).required = true) ∧
    (∀ (cs2 : List (String × DecoderCtor)) (st2 : ClassState),
      st2.decoders ≠ [] → initDecoders cs2 st2 = st2) := by
  refine ⟨⟨keys_initDecoders_perm constructions,
    keys_initDecoders_sorted constructions,
    (keys_initDecoders_perm constructions).nodup_iff.mpr hnd⟩,
    mem_requiredOptions_iff constructions, ?_⟩
  intro cs2 st2 h2
  unfold initDecoders
  rw [if_neg (by simpa using h2)]

/-- A successful association-list lookup is a membership. -/
lemma mem_of_assocLookup_eq_some {κ α : Type} [DecidableEq κ]
    {l : List (κ × α)} {k : κ} {v : α}
    (h : assocLookup l k = some v) : (k, v) ∈ l := by
  induction l with
  | nil => cases h
  | cons hd rest ih =>
    obtain ⟨k', v'⟩ := hd
    unfold assocLookup at h
    by_cases hk : k' = k
    · rw [if_pos hk] at h
      injection h with h
      subst hk
      subst h
      exact List.mem_cons_self _ _
    · rw [if_neg hk] at h
      exact List.mem_cons_of_mem _ (ih h)

/-- A key is contained exactly when it is among the keys. -/
lemma containsKey_iff_mem_keys {κ α : Type} [DecidableEq κ]
    (l : List (κ × α)) (k : κ) :
    containsKey l k = true ↔ k ∈ keys l := by
  induction l with
  | nil => simp [containsKey, assocLookup, keys]
  | cons hd rest ih =>
    obtain ⟨k', v'⟩ := hd
    show (assocLookup ((k', v') :: rest) k).isSome = true ↔ _
    unfold assocLookup
    by_cases hk : k' = k
    · subst hk
      simp [keys]
    · rw [if_neg hk]
      show containsKey rest k = true ↔ _
      rw [ih]
      constructor
      · exact fun h => List.mem_cons_of_mem _ h
      · intro h
        rcases List.mem_cons.mp h with h | h
        · exact absurd h.symm hk
        · exact h

/-- `_DecodeAndInit` on a duplicate-free decoder table whose decoders all
succeed on the supplied values: it returns an attribute map with exactly
the table's keys in table order, where each option's attribute is the
decoded supplied value, or the decoder's default when absent. -/
lemma decodeAndInit_ok (component : String)
    (config : List (String × Value)) (flagValues : Flags)
    (decoders : List (String × Decoder))
    (hnd : (keys decoders).Nodup)
    (hdec : ∀ o d raw, (o, d) ∈ decoders →
      assocLookup config o = some raw →
      ∃ v, d.decode raw component flagValues = .ok v) :
    ∃ attrs,
      decodeAndInit component config decoders flagValues = .ok attrs ∧
      keys attrs = keys decoders ∧
      ∀ o d, (o, d) ∈ decoders → ∃ v, assocLookup attrs o = some v ∧
        (match assocLookup config o with
          | some raw => d.decode raw component flagValues
          | none => Except.ok d.default) = Except.ok v := by
  induction decoders with
  | nil => exact ⟨[], rfl, rfl, fun o d h => absurd h (List.not_mem_nil _)⟩
  | cons hd rest ih =>
    obtain ⟨o, d⟩ := hd
    rw [show keys ((o, d) :: rest) = o :: keys rest from rfl,
      List.nodup_cons] at hnd
    obtain ⟨ho, hndr⟩ := hnd
    obtain ⟨attrs, hrun, hkeq, hmem⟩ := ih hndr
      (fun o' d' raw h hl => hdec o' d' raw (List.mem_cons_of_mem _ h) hl)
    have hhead : ∃ v,
        (match assocLookup config o with
          | some raw => d.decode raw component flagValues
          | none => Except.ok d.default) = Except.ok v := by
      cases hl : assocLookup config o with
      | some raw =>
        obtain ⟨v, hv⟩ := hdec o d raw (List.mem_cons_self _ _) hl
        exact ⟨v, hv⟩
      | none => exact ⟨d.default, rfl⟩
    obtain ⟨v, hv⟩ := hhead
    refine ⟨(o, v) :: attrs, ?_, ?_, ?_⟩
    · show (match (match assocLookup config o with
            | some raw => d.decode raw component flagValues
            | none => .ok d.default) with
        | .error e => .error e
        | .ok value =>
          match decodeAndInit component config rest flagValues with
          | .error e => .error e
          | .ok attrs => .ok ((o, value) :: attrs)) =
        Except.ok ((o, v) :: attrs)
      rw [hv, hrun]
    · show o :: keys attrs = o :: keys rest
      rw [hkeq]
    · intro o' d' h
      rcases List.mem_cons.mp h with h | h
      · rw [Prod.mk.injEq] at h
        obtain ⟨h1, h2⟩ := h
        subst h1
        subst h2
        exact ⟨v, by unfold assocLookup; rw [if_pos rfl], hv⟩
      · have hne : o ≠ o' := by
          intro he
          subst he
          exact ho (List.mem_map_of_mem Prod.fst h)
        obtain ⟨v', hv1, hv2⟩ := hmem o' d' h
        exact ⟨v', by unfold assocLookup; rw [if_neg hne]; exact hv1, hv2⟩

/-- Claim C1: for every input that supplies every required option and
contains no key outside the decoder table, and whose supplied values all
decode, construction succeeds, and the instance has exactly one attribute
per decoder-table entry — processed in sorted-option-name order — whose
value is `decoder.Decode(rawOptions[option], componentFullName,
overrideSource)` when the option was supplied and the decoder's default
otherwise. -/
theorem construct_success (component : String)
    (constructions : List (String × DecoderCtor)) (flagValues : Flags)
    (kwargs : List (String × Value))
    (hndc : (keys constructions).Nodup)
    (hreq : ∀ o ∈ (initDecoders constructions
        emptyClassState).requiredOptions, containsKey kwargs o = true)
    (hrec : ∀ k ∈ keys kwargs,
      containsKey (initDecoders constructions emptyClassState).decoders
        k = true)
    (hdec : ∀ o d raw,
      (o, d) ∈ (initDecoders constructions emptyClassState).decoders →
      assocLookup kwargs o = some raw →
      ∃ v, d.decode raw component flagValues = .ok v) :
    ∃ attrs,
      specInit component constructions emptyClassState flagValues kwargs =
        .ok attrs ∧
      keys attrs =
        keys (initDecoders constructions emptyClassState).decoders ∧
      (keys attrs).Perm (keys constructions) ∧
      (keys attrs).Sorted (· ≤ ·) ∧ (keys attrs).Nodup ∧
      ∀ o d,
        (o, d) ∈ (initDecoders constructions emptyClassState).decoders →
        ∃ v, assocLookup attrs o = some v ∧
          (match assocLookup kwargs o with
            | some raw => d.decode raw component flagValues
            | none => Except.ok d.default) = Except.ok v := by
  have hm : (initDecoders constructions
      emptyClassState).requiredOptions.filter
      (fun o => !containsKey kwargs o) = [] := by
    rw [List.filter_eq_nil_iff]
    intro o ho
    rw [hreq o ho]
    simp
  have hu : (keys kwargs).filter
      (fun k => !containsKey
        (initDecoders constructions emptyClassState).decoders k) = [] := by
    rw [List.filter_eq_nil_iff]
    intro k hk
    rw [hrec k hk]
    simp
  have hnd : (keys (initDecoders constructions
      emptyClassState).decoders).Nodup :=
    (keys_initDecoders_perm constructions).nodup_iff.mpr hndc
  obtain ⟨attrs, hrun, hkeq, hmem⟩ :=
    decodeAndInit_ok component kwargs flagValues
      (initDecoders constructions emptyClassState).decoders hnd hdec
  refine ⟨attrs, ?_, hkeq, ?_, ?_, ?_, hmem⟩
  · rw [specInit_decode_eq component constructions flagValues kwargs hm hu]
    exact hrun
  · rw [hkeq]
    exact keys_initDecoders_perm constructions
  · rw [hkeq]
    exact keys_initDecoders_sorted constructions
  · rw [hkeq]
    exact hnd

/-- Witness for C1: the §8 example — input `[("size", 10)]` decodes with
`size = 10` and `tier` defaulting. -/
theorem construct_success_witness :
    ∃ attrs,
      specInit "test_component" sampleConstructions emptyClassState none
          [("size", .int 10)] = .ok attrs ∧
      keys attrs =
        keys (initDecoders sampleConstructions emptyClassState).decoders ∧
      (keys attrs).Perm (keys sampleConstructions) ∧
      (keys attrs).Sorted (· ≤ ·) ∧ (keys attrs).Nodup ∧
      ∀ o d,
        (o, d) ∈ (initDecoders sampleConstructions
          emptyClassState).decoders →
        ∃ v, assocLookup attrs o = some v ∧
          (match assocLookup [("size", Value.int 10)] o with
            | some raw => d.decode raw "test_component" none
            | none => Except.ok d.default) = Except.ok v :=
  construct_success "test_component" sampleConstructions none
    [("size", .int 10)] (by decide) (by decide) (by decide)
    (by
      intro o d raw hmem hlook
      rw [show (initDecoders sampleConstructions
          emptyClassState).decoders =
        [("size", sampleSizeCtor "size"), ("tier", sampleTierCtor "tier")]
        from rfl] at hmem
      rcases List.mem_cons.mp hmem with h | h
      · injection h with h1 h2
        subst h1
        subst h2
        rw [show assocLookup [("size", Value.int 10)] "size" =
          some (Value.int 10) from rfl] at hlook
        injection hlook with h3
        subst h3
        exact ⟨Value.int 10, rfl⟩
      · rcases List.mem_cons.mp h with h | h
        · injection h with h1 h2
          subst h1
          rw [show assocLookup [("size", Value.int 10)] "tier" = none
            from rfl] at hlook
          cases hlook
        · cases h)

/-! ### The per-cloud decoder table -/

/-- The per-cloud schema declares exactly the valid cloud names. -/
lemma keys_perCloudConstructions (validClouds : List String) :
    keys (perCloudConfigConstructions validClouds) = validClouds := by
  show List.map Prod.fst
    (validClouds.map fun c => (c, perCloudOptionCtor)) = validClouds
  rw [List.map_map]
  exact List.map_id validClouds

/-- The per-cloud decoder table's entries: one `TypeVerifier` decoder per
valid cloud. -/
lemma mem_perCloud_decoders_iff (validClouds : List String) (o : String)
    (d : Decoder) :
    (o, d) ∈ (initDecoders (perCloudConfigConstructions validClouds)
      emptyClassState).decoders ↔
      o ∈ validClouds ∧ d = perCloudOptionCtor o := by
  rw [mem_initDecoders_iff]
  constructor
  · rintro ⟨c, hc, rfl⟩
    unfold perCloudConfigConstructions at hc
    rw [List.mem_map] at hc
    obtain ⟨cloud, hcl, heq⟩ := hc
    rw [Prod.mk.injEq] at heq
    obtain ⟨h1, h2⟩ := heq
    subst h1
    subst h2
    exact ⟨hcl, rfl⟩
  · rintro ⟨ho, rfl⟩
    exact ⟨perCloudOptionCtor, List.mem_map.mpr ⟨o, ho, rfl⟩, rfl⟩

/-- No per-cloud option is required (each has default `None`). -/
lemma perCloud_requiredOptions (validClouds : List String) :
    (initDecoders (perCloudConfigConstructions validClouds)
      emptyClassState).requiredOptions = [] := by
  by_contra h
  obtain ⟨o, ho⟩ := List.exists_mem_of_ne_nil _ h
  rw [mem_requiredOptions_iff] at ho
  obtain ⟨c, hc, hreq⟩ := ho
  unfold perCloudConfigConstructions at hc
  rw [List.mem_map] at hc
  obtain ⟨cloud, _, heq⟩ := hc
  rw [Prod.mk.injEq] at heq
  obtain ⟨h1, h2⟩ := heq
  subst h2
  exact Bool.noConfusion hreq

/-- Claim C7: the nested/composite decoder returns null on null; on a
mapping whose keys are valid cloud names and whose values are mappings it
returns a nested instance with one attribute per enumerated cloud — the
supplied sub-mapping when present, null when absent; and on any
non-mapping, non-null value it fails with the decoder's type error naming
the derived option name. -/
theorem perCloud_decode_behavior (option component : String)
    (validClouds : List String) (flagValues : Flags)
    (entries : List (String × Value))
    (hnc : validClouds.Nodup)
    (hkeys : ∀ k ∈ keys entries, k ∈ validClouds)
    (hvals : ∀ k v, (k, v) ∈ entries → ∃ d, v = Value.dict d) :
    perCloudConfigDecoderDecode option validClouds .null component
        flagValues = .ok .null ∧
    (∃ attrs,
      perCloudConfigDecoderDecode option validClouds (.dict entries)
          component flagValues = .ok (.dict attrs) ∧
      (keys attrs).Perm validClouds ∧
      ∀ c ∈ validClouds, assocLookup attrs c =
        some ((assocLookup entries c).getD .null)) ∧
    (∀ v, v ≠ .null → (∀ e, v ≠ .dict e) →
      perCloudConfigDecoderDecode option validClouds v component
          flagValues =
        .error (.invalidValue (getOptionFullName option component))) := by
  have hperm : (keys (initDecoders
      (perCloudConfigConstructions validClouds)
      emptyClassState).decoders).Perm validClouds := by
    have h :=
      keys_initDecoders_perm (perCloudConfigConstructions validClouds)
    rwa [keys_perCloudConstructions] at h
  have hnd : (keys (initDecoders (perCloudConfigConstructions validClouds)
      emptyClassState).decoders).Nodup :=
    hperm.nodup_iff.mpr hnc
  have hdec : ∀ o d raw,
      (o, d) ∈ (initDecoders (perCloudConfigConstructions validClouds)
        emptyClassState).decoders →
      assocLookup entries o = some raw →
      ∃ v, d.decode raw (getOptionFullName option component) flagValues =
        .ok v := by
    intro o d raw hmem hl
    obtain ⟨_, rfl⟩ := (mem_perCloud_decoders_iff validClouds o d).mp hmem
    obtain ⟨dd, rfl⟩ := hvals o raw (mem_of_assocLookup_eq_some hl)
    exact ⟨Value.dict dd, rfl⟩
  obtain ⟨attrs, hrun, hkeq, hmem⟩ :=
    decodeAndInit_ok (getOptionFullName option component) entries
      flagValues
      (initDecoders (perCloudConfigConstructions validClouds)
        emptyClassState).decoders hnd hdec
  have hm : (initDecoders (perCloudConfigConstructions validClouds)
      emptyClassState).requiredOptions.filter
      (fun o => !containsKey entries o) = [] := by
    rw [perCloud_requiredOptions]
    rfl
  have hu : (keys entries).filter
      (fun k => !containsKey
        (initDecoders (perCloudConfigConstructions validClouds)
          emptyClassState).decoders k) = [] := by
    rw [List.filter_eq_nil_iff]
    intro k hk
    have : containsKey (initDecoders
        (perCloudConfigConstructions validClouds)
        emptyClassState).decoders k = true :=
      (containsKey_iff_mem_keys _ k).mpr
        (hperm.mem_iff.mpr (hkeys k hk))
    rw [this]
    simp
  have hspec : specInit (getOptionFullName option component)
      (perCloudConfigConstructions validClouds) emptyClassState
      flagValues entries = .ok attrs := by
    rw [specInit_decode_eq _ _ _ _ hm hu]
    exact hrun
  refine ⟨rfl, ⟨attrs, ?_, ?_, ?_⟩, ?_⟩
  · show Value.dict <$> specInit (getOptionFullName option component)
      (perCloudConfigConstructions validClouds) emptyClassState
      flagValues entries = .ok (.dict attrs)
    rw [hspec]
    rfl
  · rw [hkeq]
    exact hperm
  · intro c hc
    obtain ⟨v, hv1, hv2⟩ := hmem c (perCloudOptionCtor c)
      ((mem_perCloud_decoders_iff validClouds c
        (perCloudOptionCtor c)).mpr ⟨hc, rfl⟩)
    cases hl : assocLookup entries c with
    | some raw =>
      rw [hl] at hv2
      obtain ⟨dd, rfl⟩ := hvals c raw (mem_of_assocLookup_eq_some hl)
      have hv3 : Except.ok (Value.dict dd) = Except.ok v := hv2
      injection hv3 with hv3
      rw [hv1, ← hv3]
      rfl
    | none =>
      rw [hl] at hv2
      have hv3 : Except.ok Value.null = Except.ok v := hv2
      injection hv3 with hv3
      rw [hv1, ← hv3]
      rfl
  · intro v hnull hdict
    cases v with
    | null => exact absurd rfl hnull
    | dict e => exact absurd rfl (hdict e)
    | bool b => rfl
    | int n => rfl
    | str s => rfl

/-- Witness for C7 at a concrete enumeration and sub-config mapping. -/
theorem perCloud_decode_behavior_witness :
    perCloudConfigDecoderDecode "vm_spec" ["AWS", "GCP"] .null
        "test_component" none = .ok .null ∧
    (∃ attrs,
      perCloudConfigDecoderDecode "vm_spec" ["AWS", "GCP"]
          (.dict [("GCP", .dict [("machine_type", .str "n1-standard-1")])])
          "test_component" none = .ok (.dict attrs) ∧
      (keys attrs).Perm ["AWS", "GCP"] ∧
      ∀ c ∈ ["AWS", "GCP"], assocLookup attrs c =
        some ((assocLookup
          [("GCP", Value.dict
            [("machine_type", Value.str "n1-standard-1")])] c).getD
          .null)) ∧
    (∀ v, v ≠ .null → (∀ e, v ≠ .dict e) →
      perCloudConfigDecoderDecode "vm_spec" ["AWS", "GCP"] v
          "test_component" none =
        .error (.invalidValue (getOptionFullName "vm_spec"
          "test_component"))) :=
  perCloud_decode_behavior "vm_spec" "test_component" ["AWS", "GCP"] none
    [("GCP", .dict [("machine_type", .str "n1-standard-1")])]
    (by decide) (by decide)
    (by
      intro k v h
      rcases List.mem_cons.mp h with h | h
      · injection h with h1 h2
        subst h2
        exact ⟨[("machine_type", Value.str "n1-standard-1")], rfl⟩
      · cases h)

/-- Witness for C6 at the §8 example schema. -/
theorem decoder_table_build_witness :
    ((keys (initDecoders sampleConstructions
          emptyClassState).decoders).Perm (keys sampleConstructions) ∧
      (keys (initDecoders sampleConstructions
          emptyClassState).decoders).Sorted (· ≤ ·) ∧
      (keys (initDecoders sampleConstructions
          emptyClassState).decoders).Nodup) ∧
    (∀ o, o ∈ (initDecoders sampleConstructions
        emptyClassState).requiredOptions ↔
      ∃ c, (o, c) ∈ sampleConstructions ∧ (c o).required = true) ∧
    (∀ (cs2 : List (String × DecoderCtor)) (st2 : ClassState),
      st2.decoders ≠ [] → initDecoders cs2 st2 = st2) :=
  decoder_table_build sampleConstructions (by decide)

end PKB
